import Mathlib

/-!
Shallow embedding of the `mcp-wikidata` server (`src/server.py`) and client
(`src/client.py`).  Pure string manipulation is translated directly; the
outcome of each outbound call (the bundled Wikidata search helper, the
summary tool, and the raw HTTP GETs) is made an explicit parameter of the
embedded function, one constructor per outcome the Python code
distinguishes.
-/

namespace MCPWikidata

/- ### Python string primitives -/

/-- Whitespace as classified by CPython's `Py_UNICODE_ISSPACE`, the
predicate behind both `str.strip()` and the regex class `\s` on `str`
patterns: `\t\n\v\f\r` (`U+0009`–`U+000D`), the separators
`U+001C`–`U+001F`, the space, NEL (`U+0085`), NBSP (`U+00A0`), Ogham space
mark (`U+1680`), the typographic spaces `U+2000`–`U+200A`, the line and
paragraph separators `U+2028`/`U+2029`, narrow NBSP (`U+202F`), the medium
mathematical space (`U+205F`), and the ideographic space (`U+3000`). -/
def isPySpace (c : Char) : Bool :=
  (0x9 ≤ c.toNat && c.toNat ≤ 0xd) ||
  (0x1c ≤ c.toNat && c.toNat ≤ 0x1f) ||
  c.toNat == 0x20 || c.toNat == 0x85 || c.toNat == 0xa0 ||
  c.toNat == 0x1680 ||
  (0x2000 ≤ c.toNat && c.toNat ≤ 0x200a) ||
  c.toNat == 0x2028 || c.toNat == 0x2029 || c.toNat == 0x202f ||
  c.toNat == 0x205f || c.toNat == 0x3000

/-- Effect of `re.sub(r"\s+", " ", text)` on the character list of `text`:
every maximal run of whitespace characters is replaced by a single space.
Within a run, all characters but the last are dropped and the last is
emitted as `' '`. -/
def collapseWS : List Char → List Char
  | [] => []
  | [c] => if isPySpace c then [' '] else [c]
  | a :: b :: rest =>
    if isPySpace a && isPySpace b then collapseWS (b :: rest)
    else (if isPySpace a then ' ' else a) :: collapseWS (b :: rest)

/-- Effect of Python `str.strip()`: remove leading and trailing whitespace. -/
def pyStripChars (l : List Char) : List Char :=
  List.rdropWhile isPySpace (l.dropWhile isPySpace)

/-- Python `text.strip()` on strings. -/
def pyStrip (s : String) : String :=
  String.mk (pyStripChars s.data)

/-- The helper `_sanitize_summary(text)` from `server.py`:
`re.sub(r"\s+", " ", text).strip()`. -/
def sanitize_summary (s : String) : String :=
  String.mk (pyStripChars (collapseWS s.data))

/-- Python `s.split(sep)` for a one-character separator, on character
lists: groups of non-separator characters between occurrences of `sep`,
keeping empty groups (so the result is never empty). The `[]` branch of the
inner match is unreachable, because the recursive result is never `[]`. -/
def splitOnChar (sep : Char) : List Char → List (List Char)
  | [] => [[]]
  | c :: rest =>
    match splitOnChar sep rest with
    | [] => [[]]
    | g :: gs => if c = sep then [] :: g :: gs else (c :: g) :: gs

/-- Python `s.split(sep)` on strings (one-character separator). -/
def pySplit (sep : Char) (s : String) : List String :=
  (splitOnChar sep s.data).map (fun l => String.mk l)

/- ### Sentinel strings of `server.py` -/

def errorSearchSentinel : String := "Error searching Wikidata. Please try again later."

def noResultsSentinel : String := "No results found. Consider changing the search term."

def errorQuerySentinel : String := "Error querying Wikidata. Please try again later."

def noSummarySentinel : String := "No summary available."

/- ### search_wikidata -/

/-- Outcome of `wikidata_query_tool.api_wrapper.wikidata_mw.search(query, results=1)`
in the entity branch of `search_wikidata`: it either raises (any exception)
or returns a list of result strings. -/
inductive EntitySearchOutcome where
  | raises
  | success (results : List String)

/-- Entity branch of `search_wikidata` (`is_entity=True`): an exception from
the search helper yields the error sentinel, an empty result list yields the
no-results sentinel, otherwise `results[0]` is returned. -/
def search_wikidata_entity (o : EntitySearchOutcome) : String :=
  match o with
  | .raises => errorSearchSentinel
  | .success [] => noResultsSentinel
  | .success (r :: _) => r

/-- The `search_entity` tool: `search_wikidata(query, is_entity=True)`. -/
def search_entity (o : EntitySearchOutcome) : String :=
  search_wikidata_entity o

/- ### JSON values and Python dict access -/

/-- JSON values, as produced by `response.json()`. -/
inductive Json where
  | null
  | bool (b : Bool)
  | num (n : Int)
  | str (s : String)
  | arr (elems : List Json)
  | obj (fields : List (String × Json))

/-- Whether a JSON value is an object (a Python `dict`). -/
def Json.isObj : Json → Bool
  | .obj _ => true
  | _ => false

/-- Whether a JSON value is a string. -/
def Json.isStr : Json → Bool
  | .str _ => true
  | _ => false

/-- Python `d.get(key, default)`: the value stored under `key`, the default
when `key` is absent, and an `AttributeError` (modelled as `.error ()`) when
the receiver is not a `dict`. -/
def pyGet (j : Json) (key : String) (dflt : Json) : Except Unit Json :=
  match j with
  | .obj fields =>
    match fields.lookup key with
    | some v => .ok v
    | none => .ok dflt
  | _ => .error ()

/-- Python `d[key]`: the value stored under `key`; a `KeyError` or
`TypeError` (receiver absent or not a `dict`) is modelled as `.error ()`. -/
def pyIndex (j : Json) (key : String) : Except Unit Json :=
  match j with
  | .obj fields =>
    match fields.lookup key with
    | some v => .ok v
    | none => .error ()
  | _ => .error ()

/-- Field lookup that does not raise: `some v` when the receiver is an
object with the field, `none` otherwise. Used only to state theorems. -/
def objLookup (j : Json) (key : String) : Option Json :=
  match j with
  | .obj fields => fields.lookup key
  | _ => none

/- ### Property branch of search_wikidata -/

/-- Outcome of the `httpx` GET in the property branch of `search_wikidata`:
the transport call either raises `httpx.HTTPError` (also produced by
`raise_for_status`), or yields a response whose `response.json()` either
raises a `JSONDecodeError` — which the branch's handler does not catch —
or parses to a JSON value, which the branch then navigates. -/
inductive PropertySearchOutcome where
  | httpError
  | jsonDecodeError
  | ok (data : Json)

/-- Kind of Python exception arising while the property branch navigates
the parsed response, relative to its handler
`except (httpx.HTTPError, KeyError, IndexError)`: `caught` for
`KeyError`/`IndexError`, `uncaught` for `TypeError`/`AttributeError`,
which propagate out of the tool. -/
inductive PyErr where
  | caught
  | uncaught

/-- Python `j[key]` for a string key: a `dict` yields the stored value or
raises `KeyError` (caught) when the key is absent; every other type raises
`TypeError` (uncaught). -/
def pyIndexStrKey (j : Json) (key : String) : Except PyErr Json :=
  match j with
  | .obj fields =>
    match fields.lookup key with
    | some v => .ok v
    | none => .error .caught
  | _ => .error .uncaught

/-- Python `j[0]`: a list yields its first element, or raises `IndexError`
(caught) when empty; a `dict` raises `KeyError` (caught — a parsed JSON
object has only string keys); a string yields its one-character first
substring, or raises `IndexError` when empty; other types raise
`TypeError` (uncaught). -/
def pyIndexZero (j : Json) : Except PyErr Json :=
  match j with
  | .arr (x :: _) => .ok x
  | .arr [] => .error .caught
  | .obj _ => .error .caught
  | .str s =>
    match s.data with
    | c :: _ => .ok (.str (String.mk [c]))
    | [] => .error .caught
  | _ => .error .uncaught

/-- Python `title.split(":")[-1]`: defined on strings; any other value has
no `.split` attribute and raises `AttributeError` (uncaught). -/
def pySplitLast (j : Json) : Except PyErr String :=
  match j with
  | .str title => .ok ((pySplit ':' title).getLastD "")
  | _ => .error .uncaught

/-- The `try`-body navigation of the property branch:
`response.json()["query"]["search"][0]["title"].split(":")[-1]`. -/
def propertyTitleOf (data : Json) : Except PyErr String := do
  let query ← pyIndexStrKey data "query"
  let searchList ← pyIndexStrKey query "search"
  let firstHit ← pyIndexZero searchList
  let title ← pyIndexStrKey firstHit "title"
  pySplitLast title

/-- Property branch of `search_wikidata` (`is_entity=False`): the `try`
body evaluates `propertyTitleOf` on the parsed response; `httpx.HTTPError`,
`KeyError` and `IndexError` are caught and yield the no-results sentinel,
while every other exception — the `JSONDecodeError` of a non-JSON body, a
`TypeError` from indexing a non-`dict`/non-list, an `AttributeError` from
a non-string title — propagates out of the tool, modelled as `.error ()`. -/
def search_wikidata_property (o : PropertySearchOutcome) : Except Unit String :=
  match o with
  | .httpError => .ok noResultsSentinel
  | .jsonDecodeError => .error ()
  | .ok data =>
    match propertyTitleOf data with
    | .ok t => .ok t
    | .error .caught => .ok noResultsSentinel
    | .error .uncaught => .error ()

/-- The `search_property` tool: `search_wikidata(query, is_entity=False)`. -/
def search_property (o : PropertySearchOutcome) : Except Unit String :=
  search_wikidata_property o

/-- Escaping of one character inside a JSON string literal, following
Python's `json.dumps` (ASCII control characters below `U+0020` use the
named or `\u00XX` escapes; `"` and `\` are escaped). -/
def jsonEscapeChar (c : Char) : String :=
  if c = '"' then "\\\""
  else if c = '\\' then "\\\\"
  else if c = '\n' then "\\n"
  else if c = '\t' then "\\t"
  else if c = '\r' then "\\r"
  else if c = '\x08' then "\\b"
  else if c = '\x0c' then "\\f"
  else if c.toNat < 32 then
    "\\u00" ++ String.mk [Nat.digitChar (c.toNat / 16), Nat.digitChar (c.toNat % 16)]
  else String.mk [c]

/-- Escaping of a whole string for `json.dumps`. -/
def jsonEscape (s : String) : String :=
  String.join (s.data.map jsonEscapeChar)

mutual

/-- Python `json.dumps(v)` with its default separators `", "` and `": "`. -/
def jsonDumps : Json → String
  | .null => "null"
  | .bool true => "true"
  | .bool false => "false"
  | .num n => toString n
  | .str s => "\"" ++ jsonEscape s ++ "\""
  | .arr elems => "[" ++ String.intercalate ", " (jsonDumpsList elems) ++ "]"
  | .obj fields =>
    "\x7b" ++ String.intercalate ", " (jsonDumpsFields fields) ++ "\x7d"

/-- Serialization of the elements of a JSON array. -/
def jsonDumpsList : List Json → List String
  | [] => []
  | j :: js => jsonDumps j :: jsonDumpsList js

/-- Serialization of the fields of a JSON object. -/
def jsonDumpsFields : List (String × Json) → List String
  | [] => []
  | (k, v) :: fs => ("\"" ++ jsonEscape k ++ "\": " ++ jsonDumps v) :: jsonDumpsFields fs

end

/- ### HTTP requests and outcomes -/

/-- Endpoint of the Wikidata MediaWiki API. -/
def WIKIDATA_URL : String := "https://www.wikidata.org/w/api.php"

/-- Endpoint of the Wikidata SPARQL service (local `url` in `execute_sparql`). -/
def SPARQL_URL : String := "https://query.wikidata.org/sparql"

/-- The module-level `HEADER` dict of `server.py`. -/
def HEADER : List (String × String) :=
  [("Accept", "application/json"), ("User-Agent", "foobar")]

/-- An outbound `client.get(url, headers=..., params=...)` call. The
`headers` field holds the explicitly passed `headers=` argument; it is `[]`
for calls that pass no `headers=` argument, in which case only the HTTP
library's default headers apply. -/
structure HttpRequest where
  url : String
  headers : List (String × String)
  params : List (String × String)

/-- The GET request issued by the property branch of `search_wikidata`:
`client.get(WIKIDATA_URL, headers=HEADER, params=params)`. -/
def search_property_request (query : String) : HttpRequest :=
  { url := WIKIDATA_URL
    headers := HEADER
    params :=
      [("action", "query"), ("list", "search"), ("srsearch", query),
       ("srnamespace", "120"), ("srlimit", "1"), ("srqiprofile", "classic"),
       ("srwhat", "text"), ("format", "json")] }

/-- The GET request issued by `get_properties`:
`client.get(WIKIDATA_URL, headers=HEADER, params=params)`. -/
def get_properties_request (entity_id : String) : HttpRequest :=
  { url := WIKIDATA_URL
    headers := HEADER
    params :=
      [("action", "wbgetentities"), ("ids", entity_id), ("props", "claims"),
       ("format", "json")] }

/-- The GET request issued by `execute_sparql`:
`client.get(url, params={"query": sparql_query, "format": "json"})` — note
that no `headers=` argument is passed. -/
def execute_sparql_request (sparql_query : String) : HttpRequest :=
  { url := SPARQL_URL
    headers := []
    params := [("query", sparql_query), ("format", "json")] }

/-- The GET request issued by `get_metadata`:
`client.get(WIKIDATA_URL, params=params)` — note that no `headers=`
argument is passed. -/
def get_metadata_request (entity_id language : String) : HttpRequest :=
  { url := WIKIDATA_URL
    headers := []
    params :=
      [("action", "wbgetentities"), ("ids", entity_id),
       ("props", "labels|descriptions"), ("languages", language),
       ("format", "json")] }

/-- Outcome of an awaited `client.get`, as the calling code distinguishes
it: either `response.raise_for_status()` raises (transport error or 4xx/5xx
status), or the call succeeds and `response.json()` yields a JSON value. -/
inductive HttpOutcome where
  | httpError
  | ok (data : Json)

/- ### get_properties -/

/-- The `get_properties` tool: on a successful response it evaluates
`list(data.get("entities", {}).get(entity_id, {}).get("claims", {}).keys())`;
an HTTP error from `raise_for_status` propagates (`.error ()`), as does a
`TypeError`/`AttributeError` from applying `.get` or `.keys()` to a
non-`dict`. -/
def get_properties (entity_id : String) (resp : HttpOutcome) :
    Except Unit (List String) :=
  match resp with
  | .httpError => .error ()
  | .ok data => do
    let entities ← pyGet data "entities" (.obj [])
    let entity_data ← pyGet entities entity_id (.obj [])
    let claims ← pyGet entity_data "claims" (.obj [])
    match claims with
    | .obj fields => .ok (fields.map Prod.fst)
    | _ => .error ()

/- ### execute_sparql -/

/-- The `execute_sparql` tool: on a successful response it evaluates
`json.dumps(response.json()["results"]["bindings"])`; an HTTP error from
`raise_for_status` propagates, as does the `KeyError` from the two raw
index operations. -/
def execute_sparql (resp : HttpOutcome) : Except Unit String :=
  match resp with
  | .httpError => .error ()
  | .ok data => do
    let results ← pyIndex data "results"
    let bindings ← pyIndex results "bindings"
    .ok (jsonDumps bindings)

/- ### wikidata_query -/

/-- Value returned by `wikidata_query_tool.run(query)` when it does not
raise: a Python string, or a value of any other type. -/
inductive SummaryValue where
  | str (s : String)
  | nonStr

/-- Outcome of `wikidata_query_tool.run(query)`: it either raises (any
exception) or returns a value. -/
inductive SummaryOutcome where
  | raises
  | returns (v : SummaryValue)

/-- The `wikidata_query` tool: an exception yields the error sentinel; a
non-string or blank result yields the no-summary sentinel; otherwise the
summary is sanitized (`_sanitize_summary`). Python's `not summary.strip()`
is the emptiness test of the stripped string. -/
def wikidata_query (o : SummaryOutcome) : String :=
  match o with
  | .raises => errorQuerySentinel
  | .returns .nonStr => noSummarySentinel
  | .returns (.str s) =>
    if (pyStrip s).data = [] then noSummarySentinel
    else sanitize_summary s

/- ### get_metadata -/

/-- The `.get(field, {}).get(language, {}).get("value", "No label found")`
chain of `get_metadata`, applied to `entity_data` once with
`field = "labels"` and once with `field = "descriptions"`. -/
def metadataValue (entity_data : Json) (field language : String) :
    Except Unit Json := do
  let m ← pyGet entity_data field (.obj [])
  let langEntry ← pyGet m language (.obj [])
  pyGet langEntry "value" (.str "No label found")

/-- The `get_metadata` tool: on a successful response it resolves
`data.get("entities", {}).get(entity_id, {})` and then reads the label and
the description through `metadataValue`, returning
`{"Label": label, "Descriptions": descriptions}`. An HTTP error from
`raise_for_status` propagates, as does an `AttributeError` from applying
`.get` to a non-`dict`. -/
def get_metadata (entity_id language : String) (resp : HttpOutcome) :
    Except Unit (List (String × Json)) :=
  match resp with
  | .httpError => .error ()
  | .ok data => do
    let entities ← pyGet data "entities" (.obj [])
    let entity_data ← pyGet entities entity_id (.obj [])
    let label ← metadataValue entity_data "labels" language
    let descriptions ← metadataValue entity_data "descriptions" language
    .ok [("Label", label), ("Descriptions", descriptions)]

/- ### Tool registration -/

/-- Names of the tools registered on the `FastMCP` server, one per
`@server.tool()` decorator in `server.py`, in source order. -/
def registered_tools : List String :=
  ["search_entity", "search_property", "get_properties", "execute_sparql",
   "wikidata_query", "get_metadata"]

/- ### Client configuration (`client.py`) -/

/-- The pydantic `Config` settings object of `client.py` (the
`server_script` path field is derived from `__file__` at runtime and has no
bearing on the claims about environment-driven settings). -/
structure Config where
  openai_api_key : String
  model : String
  prompt : String
  server_cmd : String

/-- Default system prompt of the client. -/
def defaultPrompt : String :=
  "You are a helpful assistant. Answer the user's questions based on Wikidata."

/-- Construction of `Config()` from the process environment, with pydantic
`BaseSettings` semantics for the declared fields: `openai_api_key` is a
required field bound to `OPENAI_API_KEY` (a missing variable raises a
`ValidationError`, modelled as `.error ()`); `model` and `prompt` fall back
to their declared defaults; `server_cmd` is the constant `"python"`. -/
def Config.fromEnv (env : List (String × String)) : Except Unit Config :=
  match env.lookup "OPENAI_API_KEY" with
  | none => .error ()
  | some key =>
    .ok
      { openai_api_key := key
        model := (env.lookup "MCP_MODEL").getD "gpt-4o"
        prompt := (env.lookup "MCP_PROMPT").getD defaultPrompt
        server_cmd := "python" }

/-- Parameters handed to `StdioServerParameters` when the client launches
the server. -/
structure LaunchParams where
  command : String

/-- `Config.stdio_params` of `client.py`, restricted to the command (the
script path is runtime-derived). -/
def Config.stdio_params (cfg : Config) : LaunchParams :=
  { command := cfg.server_cmd }

/-- Prefix of the client's `main()` up to the server launch: `Config()` is
constructed first, so a validation error occurs before any launch
parameters are produced (and hence before any subprocess or network
activity). -/
def client_startup (env : List (String × String)) : Except Unit LaunchParams :=
  (Config.fromEnv env).map Config.stdio_params

/- ### Predicates used to state the theorems -/

/-- Whether a character list does not start with whitespace (and so, applied
to `l.reverse`, whether `l` does not end with whitespace). -/
def headNotWS : List Char → Bool
  | [] => true
  | c :: _ => !isPySpace c

/-- Whether a character list has no two adjacent whitespace characters. -/
def noAdjPairs : List Char → Bool
  | [] => true
  | [_] => true
  | a :: b :: rest => !(isPySpace a && isPySpace b) && noAdjPairs (b :: rest)

/-- Whether every whitespace character of a character list is a plain
space. -/
def wsOnlyPlain (l : List Char) : Bool :=
  l.all (fun c => !isPySpace c || c = ' ')

/-- Relation between adjacent characters stating that they are not both
whitespace; a list whose adjacent pairs all satisfy it has no run of two or
more whitespace characters. -/
def noAdjRel (a b : Char) : Prop :=
  ¬(isPySpace a = true ∧ isPySpace b = true)

/-- Shape assumption on one field block of a `wbgetentities` response: if
`entity_data[field]` is present it is an object, if its `language` entry is
present it is an object, and if that entry's `"value"` is present it is a
string. Every level may be absent. -/
def fieldShapeOk (entity_data : Json) (field language : String) : Bool :=
  match objLookup entity_data field with
  | none => true
  | some m =>
    m.isObj &&
    (match objLookup m language with
     | none => true
     | some langEntry =>
       langEntry.isObj &&
       (match objLookup langEntry "value" with
        | none => true
        | some v => v.isStr))

/-- Shape assumption on a successful `wbgetentities` response as read by
`get_metadata`: present levels are objects and present `"value"` entries
are strings; any level may be absent. -/
def metadataShapeOk (data : Json) (entity_id language : String) : Bool :=
  data.isObj &&
  (match objLookup data "entities" with
   | none => true
   | some entities =>
     entities.isObj &&
     (match objLookup entities entity_id with
      | none => true
      | some entity_data =>
        entity_data.isObj &&
        fieldShapeOk entity_data "labels" language &&
        fieldShapeOk entity_data "descriptions" language))

/-- The value stored at `entity_data[field][language]["value"]`, when every
level is present (`none` otherwise). -/
def valueAtField (entity_data : Json) (field language : String) : Option Json :=
  ((objLookup entity_data field).bind (fun m => objLookup m language)).bind
    (fun langEntry => objLookup langEntry "value")

/-- The value stored at `data["entities"][entity_id][field][language]["value"]`,
when every level is present (`none` otherwise). -/
def wbValueAt (data : Json) (entity_id field language : String) : Option Json :=
  ((objLookup data "entities").bind (fun entities => objLookup entities entity_id)).bind
    (fun entity_data => valueAtField entity_data field language)

/- ### Lemmas about `splitOnChar` -/

theorem splitOnChar_ne_nil (sep : Char) (l : List Char) : splitOnChar sep l ≠ [] := by
  cases l with
  | nil => simp [splitOnChar]
  | cons c rest =>
    cases h : splitOnChar sep rest with
    | nil => simp [splitOnChar, h]
    | cons g gs =>
      simp only [splitOnChar, h]
      by_cases hc : c = sep <;> simp [hc]

theorem splitOnChar_not_mem (sep : Char) (l : List Char) :
    ∀ g ∈ splitOnChar sep l, sep ∉ g := by
  induction l with
  | nil =>
    intro g hg
    simp only [splitOnChar, List.mem_singleton] at hg
    subst hg; simp
  | cons c rest ih =>
    intro g hg
    cases h : splitOnChar sep rest with
    | nil => exact absurd h (splitOnChar_ne_nil sep rest)
    | cons g0 gs =>
      simp only [splitOnChar, h] at hg
      by_cases hc : c = sep
      · rw [if_pos hc] at hg
        rcases List.mem_cons.mp hg with hg' | hg'
        · subst hg'; simp
        · exact ih g (h ▸ hg')
      · rw [if_neg hc] at hg
        rcases List.mem_cons.mp hg with hg' | hg'
        · subst hg'
          intro hmem
          rcases List.mem_cons.mp hmem with hs | hs
          · exact hc hs.symm
          · exact ih g0 (h ▸ List.mem_cons_self g0 gs) hs
        · exact ih g (h ▸ List.mem_cons_of_mem g0 hg')

theorem splitOnChar_of_not_mem (sep : Char) (l : List Char) (hl : sep ∉ l) :
    splitOnChar sep l = [l] := by
  induction l with
  | nil => rfl
  | cons c rest ih =>
    have hc : c ≠ sep := fun h => hl (h ▸ List.mem_cons_self c rest)
    have hrest : sep ∉ rest := fun h => hl (List.mem_cons_of_mem c h)
    simp only [splitOnChar, ih hrest, if_neg hc]

theorem splitOnChar_length_of_mem (sep : Char) (l : List Char) (hl : sep ∈ l) :
    2 ≤ (splitOnChar sep l).length := by
  induction l with
  | nil => cases hl
  | cons c rest ih =>
    cases h : splitOnChar sep rest with
    | nil => exact absurd h (splitOnChar_ne_nil sep rest)
    | cons g gs =>
      simp only [splitOnChar, h]
      by_cases hc : c = sep
      · simp [hc]
      · rw [if_neg hc]
        rcases List.mem_cons.mp hl with hs | hs
        · exact absurd hs.symm hc
        · have := ih hs
          rw [h] at this
          simpa using this

theorem takeWhile_append_neg {p : Char → Bool} {c : Char} (hc : p c = false)
    (xs : List Char) : (xs ++ [c]).takeWhile p = xs.takeWhile p := by
  rw [List.takeWhile_append]
  split
  · next h =>
    have hx : xs.takeWhile p = xs := ( List.takeWhile_prefix p).eq_of_length h
    simp [List.takeWhile_cons, hc, hx]
  · rfl

theorem takeWhile_append_of_mem_neg {p : Char → Bool} {xs : List Char}
    (hx : ∃ x ∈ xs, p x = false) (ys : List Char) :
    (xs ++ ys).takeWhile p = xs.takeWhile p := by
  rw [List.takeWhile_append]
  split
  · next h =>
    have hall : xs.takeWhile p = xs := ( List.takeWhile_prefix p).eq_of_length h
    rcases hx with ⟨x, hmem, hpx⟩
    have := List.takeWhile_eq_self_iff.mp hall x hmem
    rw [this] at hpx
    cases hpx
  · rfl

theorem takeWhile_append_pos {p : Char → Bool} {c : Char} {xs : List Char}
    (hall : ∀ x ∈ xs, p x = true) (hc : p c = true) :
    (xs ++ [c]).takeWhile p = xs ++ [c] := by
  have hx : xs.takeWhile p = xs := List.takeWhile_eq_self_iff.mpr hall
  rw [List.takeWhile_append, hx]
  simp [List.takeWhile_cons, hc]

theorem splitOnChar_getLastD (sep : Char) (l : List Char) :
    (splitOnChar sep l).getLastD [] =
      (l.reverse.takeWhile (fun c => c != sep)).reverse := by
  induction l with
  | nil => rfl
  | cons c rest ih =>
    cases h : splitOnChar sep rest with
    | nil => exact absurd h (splitOnChar_ne_nil sep rest)
    | cons g gs =>
      simp only [splitOnChar, h, List.reverse_cons]
      by_cases hc : c = sep
      · rw [if_pos hc, List.getLastD_cons, ← h, ih, hc,
          takeWhile_append_neg (by simp)]
      · rw [if_neg hc]
        have hpc : (fun x => x != sep) c = true := by simp [hc]
        cases gs with
        | nil =>
          have hnomem : sep ∉ rest := by
            intro hmem
            have := splitOnChar_length_of_mem sep rest hmem
            rw [h] at this
            simp at this
          have hrest : splitOnChar sep rest = [rest] :=
            splitOnChar_of_not_mem sep rest hnomem
          rw [h] at hrest
          have hg : g = rest := by simpa using hrest
          rw [hg]
          have hall : ∀ x ∈ rest.reverse, (fun x => x != sep) x = true := by
            intro x hx
            simp only [bne_iff_ne, ne_eq]
            intro hxs
            exact hnomem (hxs ▸ List.mem_reverse.mp hx)
          rw [takeWhile_append_pos hall hpc]
          simp
        | cons g1 gs' =>
          have hmem : sep ∈ rest := by
            by_contra hnomem
            have := splitOnChar_of_not_mem sep rest hnomem
            rw [h] at this
            simp at this
          have hx : ∃ x ∈ rest.reverse, (fun x => x != sep) x = false := by
            refine ⟨sep, List.mem_reverse.mpr hmem, by simp⟩
          rw [takeWhile_append_of_mem_neg hx, ← ih, h]
          rfl

theorem getLastD_map {α β : Type} (f : α → β) (l : List α) (d : α) :
    (l.map f).getLastD (f d) = f (l.getLastD d) := by
  induction l generalizing d with
  | nil => rfl
  | cons a l ih =>
    rw [List.map_cons, List.getLastD_cons, List.getLastD_cons]
    exact ih a

/-- Claim C9: when `search_property` succeeds (a well-formed response whose
first search hit carries the page title), the returned identifier is
`title.split(":")[-1]`, which equals the segment of the title after its
last colon and contains no colon character. -/
theorem search_property_result_has_no_colon (title : String) :
    search_property (.ok (.obj [("query", .obj [("search",
        .arr [.obj [("title", .str title)]])])])) =
      .ok ((pySplit ':' title).getLastD "") ∧
    ((pySplit ':' title).getLastD "").data =
      (title.data.reverse.takeWhile (fun c => c != ':')).reverse ∧
    ((pySplit ':' title).getLastD "").data.all (fun c => c != ':') = true := by
  have hmap : (pySplit ':' title).getLastD "" =
      String.mk ((splitOnChar ':' title.data).getLastD []) := by
    show ((splitOnChar ':' title.data).map (fun l => String.mk l)).getLastD
        (String.mk []) = _
    rw [getLastD_map]
  refine ⟨rfl, ?_, ?_⟩
  · rw [hmap, splitOnChar_getLastD]
  · rw [hmap]
    rw [List.all_eq_true]
    intro c hc
    simp only [bne_iff_ne, ne_eq]
    intro hcs
    subst hcs
    have hlast : (splitOnChar ':' title.data).getLastD [] ∈
        splitOnChar ':' title.data := by
      have hne := splitOnChar_ne_nil ':' title.data
      cases hsp : splitOnChar ':' title.data with
      | nil => exact absurd hsp hne
      | cons g gs =>
        rw [List.getLastD_cons]
        exact List.getLastD_mem_cons gs g
    exact splitOnChar_not_mem ':' title.data _ hlast hc

/- ### Lemmas about `collapseWS` and `pyStripChars` -/

theorem collapseWS_cons_not_ws {b : Char} (hb : isPySpace b = false)
    (rest : List Char) : ∃ t, collapseWS (b :: rest) = b :: t := by
  cases rest with
  | nil => exact ⟨[], by simp [collapseWS, hb]⟩
  | cons r rs => exact ⟨collapseWS (r :: rs), by simp [collapseWS, hb]⟩

theorem collapseWS_wsOnlyPlain (l : List Char) :
    wsOnlyPlain (collapseWS l) = true := by
  induction l with
  | nil => rfl
  | cons a tail ih =>
    cases tail with
    | nil =>
      by_cases ha : isPySpace a = true <;>
        simp [collapseWS, wsOnlyPlain, ha]
    | cons b rest =>
      by_cases hab : (isPySpace a && isPySpace b) = true
      · simpa [collapseWS, hab] using ih
      · have hred : collapseWS (a :: b :: rest) =
            (if isPySpace a then ' ' else a) :: collapseWS (b :: rest) := by
          simp [collapseWS, hab]
        rw [hred]
        simp only [wsOnlyPlain, List.all_cons, Bool.and_eq_true] at ih ⊢
        refine ⟨?_, ih⟩
        by_cases ha : isPySpace a = true <;> simp [ha]

theorem collapseWS_noAdj (l : List Char) :
    (collapseWS l).Chain' noAdjRel := by
  induction l with
  | nil => simp [collapseWS]
  | cons a tail ih =>
    cases tail with
    | nil => by_cases ha : isPySpace a = true <;> simp [collapseWS, ha]
    | cons b rest =>
      by_cases hab : (isPySpace a && isPySpace b) = true
      · have hred : collapseWS (a :: b :: rest) = collapseWS (b :: rest) := by
          simp [collapseWS, hab]
        rw [hred]; exact ih
      · have hred : collapseWS (a :: b :: rest) =
            (if isPySpace a then ' ' else a) :: collapseWS (b :: rest) := by
          simp [collapseWS, hab]
        rw [hred, List.chain'_cons']
        refine ⟨?_, ih⟩
        intro y hy
        by_cases ha : isPySpace a = true
        · have hb : isPySpace b = false := by
            cases hbb : isPySpace b
            · rfl
            · exact absurd (by simp [ha, hbb]) hab
          obtain ⟨t, ht⟩ := collapseWS_cons_not_ws hb rest
          rw [ht] at hy
          simp only [List.head?_cons, Option.mem_def, Option.some.injEq] at hy
          subst hy
          simp [noAdjRel, hb]
        · simp [noAdjRel, ha]

theorem collapseWS_fixed (l : List Char) (hws : wsOnlyPlain l = true)
    (hadj : l.Chain' noAdjRel) : collapseWS l = l := by
  induction l with
  | nil => rfl
  | cons a tail ih =>
    have ha' : (!isPySpace a || a = ' ') = true := by
      have := List.all_eq_true.mp hws a (List.mem_cons_self a tail)
      simpa using this
    cases tail with
    | nil =>
      by_cases ha : isPySpace a = true
      · have haeq : a = ' ' := by simpa [ha] using ha'
        simp [collapseWS, ha, haeq]
      · simp [collapseWS, ha]
    | cons b rest =>
      rw [List.chain'_cons] at hadj
      have hab : (isPySpace a && isPySpace b) = false := by
        cases hA : isPySpace a <;> cases hB : isPySpace b <;>
          simp_all [noAdjRel]
      have hred : collapseWS (a :: b :: rest) =
          (if isPySpace a then ' ' else a) :: collapseWS (b :: rest) := by
        simp [collapseWS, hab]
      have htail : collapseWS (b :: rest) = b :: rest := by
        refine ih ?_ hadj.2
        have h2 := hws
        simp only [wsOnlyPlain, List.all_cons, Bool.and_eq_true] at h2 ⊢
        exact h2.2
      rw [hred, htail]
      by_cases ha : isPySpace a = true
      · have haeq : a = ' ' := by simpa [ha] using ha'
        simp [ha, haeq]
      · simp [ha]

theorem headNotWS_dropWhile (l : List Char) :
    headNotWS (l.dropWhile isPySpace) = true := by
  induction l with
  | nil => rfl
  | cons c rest ih =>
    by_cases hc : isPySpace c = true
    · simpa [List.dropWhile_cons, hc] using ih
    · simp [List.dropWhile_cons, hc, headNotWS]

theorem headNotWS_of_starts {x y : List Char} (h : x <+: y)
    (hy : headNotWS y = true) : headNotWS x = true := by
  cases x with
  | nil => rfl
  | cons c t =>
    obtain ⟨r, hr⟩ := h
    rw [← hr] at hy
    simpa [headNotWS, List.cons_append] using hy

theorem dropWhile_eq_self_of_headNotWS {x : List Char}
    (h : headNotWS x = true) : x.dropWhile isPySpace = x := by
  cases x with
  | nil => rfl
  | cons c t =>
    simp only [headNotWS, Bool.not_eq_true'] at h
    simp [List.dropWhile_cons, h]

theorem pyStripChars_headNotWS (l : List Char) :
    headNotWS (pyStripChars l) = true :=
  headNotWS_of_starts ( List.rdropWhile_prefix _ _) (headNotWS_dropWhile l)

theorem pyStripChars_reverse_headNotWS (l : List Char) :
    headNotWS (pyStripChars l).reverse = true := by
  show headNotWS
      (List.rdropWhile isPySpace (l.dropWhile isPySpace)).reverse = true
  rw [List.rdropWhile, List.reverse_reverse]
  exact headNotWS_dropWhile _

theorem pyStripChars_sublist (l : List Char) : (pyStripChars l).Sublist l :=
  (( List.rdropWhile_prefix _ _).sublist).trans (List.dropWhile_suffix _).sublist

theorem wsOnlyPlain_sublist {x y : List Char} (h : x.Sublist y)
    (hy : wsOnlyPlain y = true) : wsOnlyPlain x = true := by
  rw [wsOnlyPlain, List.all_eq_true] at hy ⊢
  exact fun c hc => hy c (h.subset hc)

theorem pyStripChars_chain {R : Char → Char → Prop} {l : List Char}
    (h : l.Chain' R) : (pyStripChars l).Chain' R :=
  List.Chain'.prefix (h.suffix (List.dropWhile_suffix _)) ( List.rdropWhile_prefix _ _)

theorem pyStripChars_idem (l : List Char) :
    pyStripChars (pyStripChars l) = pyStripChars l := by
  show List.rdropWhile isPySpace ((pyStripChars l).dropWhile isPySpace) =
    pyStripChars l
  rw [dropWhile_eq_self_of_headNotWS (pyStripChars_headNotWS l), pyStripChars,
    List.rdropWhile_idempotent]

theorem noAdjPairs_iff_chain (l : List Char) :
    noAdjPairs l = true ↔ l.Chain' noAdjRel := by
  induction l with
  | nil => simp [noAdjPairs]
  | cons a tail ih =>
    cases tail with
    | nil => simp [noAdjPairs]
    | cons b rest =>
      rw [List.chain'_cons, ← ih]
      simp only [noAdjPairs, Bool.and_eq_true, Bool.not_eq_true',
        Bool.and_eq_false_iff, noAdjRel]
      constructor
      · rintro ⟨h1, h2⟩
        refine ⟨?_, h2⟩
        rintro ⟨hA, hB⟩
        rcases h1 with h | h
        · rw [hA] at h; cases h
        · rw [hB] at h; cases h
      · rintro ⟨h1, h2⟩
        refine ⟨?_, h2⟩
        cases hA : isPySpace a
        · exact Or.inl rfl
        · cases hB : isPySpace b
          · exact Or.inr rfl
          · exact absurd ⟨hA, hB⟩ h1

theorem sanitize_summary_fixed (s : String) :
    sanitize_summary (sanitize_summary s) = sanitize_summary s := by
  show String.mk (pyStripChars (collapseWS (pyStripChars (collapseWS s.data))))
    = String.mk (pyStripChars (collapseWS s.data))
  rw [collapseWS_fixed _
      (wsOnlyPlain_sublist (pyStripChars_sublist _) (collapseWS_wsOnlyPlain s.data))
      (pyStripChars_chain (collapseWS_noAdj s.data)),
    pyStripChars_idem]

theorem sanitize_summary_props (s : String) :
    headNotWS (sanitize_summary s).data = true ∧
    headNotWS (sanitize_summary s).data.reverse = true ∧
    noAdjPairs (sanitize_summary s).data = true :=
  ⟨pyStripChars_headNotWS _, pyStripChars_reverse_headNotWS _,
   (noAdjPairs_iff_chain _).mpr (pyStripChars_chain (collapseWS_noAdj _))⟩

/- ### Claim theorems -/

/-- Claim C10: the summary sanitizer is idempotent, and every non-sentinel
output of `wikidata_query` is a fixed point of the sanitizer, with no
leading or trailing whitespace and no two adjacent whitespace
characters. -/
theorem sanitize_summary_idempotent :
    (∀ s : String, sanitize_summary (sanitize_summary s) = sanitize_summary s) ∧
    (∀ o : SummaryOutcome,
      wikidata_query o ≠ errorQuerySentinel →
      wikidata_query o ≠ noSummarySentinel →
      sanitize_summary (wikidata_query o) = wikidata_query o ∧
      headNotWS (wikidata_query o).data = true ∧
      headNotWS (wikidata_query o).data.reverse = true ∧
      noAdjPairs (wikidata_query o).data = true) := by
  refine ⟨sanitize_summary_fixed, ?_⟩
  intro o h1 h2
  cases o with
  | raises => exact absurd rfl h1
  | returns v =>
    cases v with
    | nonStr => exact absurd rfl h2
    | str s =>
      by_cases hempty : (pyStrip s).data = []
      · have : wikidata_query (.returns (.str s)) = noSummarySentinel := by
          simp [wikidata_query, hempty]
        exact absurd this h2
      · have heq : wikidata_query (.returns (.str s)) = sanitize_summary s := by
          simp [wikidata_query, hempty]
        rw [heq]
        exact ⟨sanitize_summary_fixed s, sanitize_summary_props s⟩

/-- Witness for the sanitizer-idempotence theorem at the concrete summary
outcome `" a  b "`, whose query result is `"a b"`. -/
theorem sanitize_summary_idempotent_witness :
    sanitize_summary (wikidata_query (.returns (.str " a  b "))) =
      wikidata_query (.returns (.str " a  b ")) ∧
    headNotWS (wikidata_query (.returns (.str " a  b "))).data = true ∧
    headNotWS (wikidata_query (.returns (.str " a  b "))).data.reverse = true ∧
    noAdjPairs (wikidata_query (.returns (.str " a  b "))).data = true :=
  sanitize_summary_idempotent.2 (.returns (.str " a  b ")) (by decide) (by decide)

/-- Claim C6: `wikidata_query` never propagates an exception (the embedded
function is total over every outcome of the summary call): an exception
yields exactly the error sentinel, a non-string or blank result yields the
no-summary sentinel, and otherwise the summary is returned with whitespace
runs collapsed to single spaces and leading/trailing whitespace removed —
the result is `_sanitize_summary` of the summary, which starts and ends
with non-whitespace and has no two adjacent whitespace characters. -/
theorem wikidata_query_sentinel_behaviour :
    wikidata_query .raises = errorQuerySentinel ∧
    wikidata_query (.returns .nonStr) = noSummarySentinel ∧
    (∀ s, (pyStrip s).data = [] →
      wikidata_query (.returns (.str s)) = noSummarySentinel) ∧
    (∀ s, (pyStrip s).data ≠ [] →
      wikidata_query (.returns (.str s)) = sanitize_summary s ∧
      headNotWS (sanitize_summary s).data = true ∧
      headNotWS (sanitize_summary s).data.reverse = true ∧
      noAdjPairs (sanitize_summary s).data = true) := by
  refine ⟨rfl, rfl, ?_, ?_⟩
  · intro s h
    simp [wikidata_query, h]
  · intro s h
    exact ⟨by simp [wikidata_query, h], sanitize_summary_props s⟩

/-- Witness for the `wikidata_query` behaviour theorem at a blank summary
and at the summary `" a  b "`. -/
theorem wikidata_query_sentinel_behaviour_witness :
    wikidata_query (.returns (.str "  \t ")) = noSummarySentinel ∧
    wikidata_query (.returns (.str " a  b ")) = sanitize_summary " a  b " :=
  ⟨wikidata_query_sentinel_behaviour.2.2.1 "  \t " (by decide),
   (wikidata_query_sentinel_behaviour.2.2.2 " a  b " (by decide)).1⟩

theorem exceptBind_eq_ok {ε α β : Type} {x : Except ε α} {f : α → Except ε β}
    {b : β} (h : x >>= f = .ok b) : ∃ a, x = .ok a ∧ f a = .ok b := by
  cases x with
  | ok a => exact ⟨a, rfl, h⟩
  | error e => exact Except.noConfusion h

theorem propertyTitleOf_ok {data : Json} {t : String}
    (h : propertyTitleOf data = .ok t) :
    ∃ title : String, t = (pySplit ':' title).getLastD "" := by
  obtain ⟨q, hq, h⟩ := exceptBind_eq_ok h
  obtain ⟨s, hs, h⟩ := exceptBind_eq_ok h
  obtain ⟨f, hf, h⟩ := exceptBind_eq_ok h
  obtain ⟨ti, hti, h⟩ := exceptBind_eq_ok h
  cases ti with
  | str s2 => exact ⟨s2, (Except.ok.inj h).symm⟩
  | null => exact Except.noConfusion h
  | bool b => exact Except.noConfusion h
  | num n => exact Except.noConfusion h
  | arr elems => exact Except.noConfusion h
  | obj fields => exact Except.noConfusion h

/-- Counterexample to claim C1 as stated: when the underlying search call
succeeds with the result list `[""]`, `search_entity` returns the empty
string — neither a non-empty identifier string nor either of the two
sentinels — and `search_property` propagates an exception both when the
response body is not JSON and when it parses to an array (a `TypeError`
outside the branch's handler). -/
theorem search_entity_empty_result_counterexample :
    search_entity (.success [""]) = "" ∧
    ("" : String) ≠ errorSearchSentinel ∧
    ("" : String) ≠ noResultsSentinel ∧
    search_property .jsonDecodeError = .error () ∧
    search_property (.ok (.arr [])) = .error () := by
  refine ⟨rfl, ?_, ?_, rfl, rfl⟩ <;> decide

/-- Claim C1 (amended): `search_entity` never raises and, for any outcome
of the underlying search call, returns either the first upstream result
string or one of the two fixed sentinels, with a non-empty result whenever
that upstream string is non-empty; `search_property` returns the
namespace-stripped title (`title.split(":")[-1]`) on the success path and
the no-results sentinel on every outcome its handler catches (HTTP error,
`KeyError`, `IndexError`), but outcomes outside the handler — a non-JSON
body, a `TypeError` from indexing a non-`dict`/non-list, a non-string
title — propagate as raised exceptions. -/
theorem search_tools_sentinel_or_identifier :
    (∀ o : EntitySearchOutcome,
      (∃ r rest, o = .success (r :: rest) ∧ search_entity o = r) ∨
      search_entity o = errorSearchSentinel ∨
      search_entity o = noResultsSentinel) ∧
    (∀ r rest, r ≠ "" → search_entity (.success (r :: rest)) ≠ "") ∧
    (∀ o res, search_property o = .ok res →
      res = noResultsSentinel ∨
      ∃ title : String, res = (pySplit ':' title).getLastD "") ∧
    (∀ title : String,
      pySplitLast (.str title) = .ok ((pySplit ':' title).getLastD "")) ∧
    search_property .httpError = .ok noResultsSentinel ∧
    search_property .jsonDecodeError = .error () ∧
    search_property (.ok (.obj [])) = .ok noResultsSentinel ∧
    search_property (.ok (.arr [])) = .error () := by
  refine ⟨?_, ?_, ?_, fun _ => rfl, rfl, rfl, rfl, rfl⟩
  · intro o
    cases o with
    | raises => exact Or.inr (Or.inl rfl)
    | success results =>
      cases results with
      | nil => exact Or.inr (Or.inr rfl)
      | cons r rest => exact Or.inl ⟨r, rest, rfl, rfl⟩
  · intro r rest h
    exact h
  · intro o res h
    cases o with
    | httpError => exact Or.inl (Except.ok.inj h).symm
    | jsonDecodeError => exact Except.noConfusion h
    | ok data =>
      revert h
      simp only [search_property, search_wikidata_property]
      cases hp : propertyTitleOf data with
      | ok t =>
        intro h
        obtain ⟨title, htt⟩ := propertyTitleOf_ok hp
        exact Or.inr ⟨title, by rw [← Except.ok.inj h]; exact htt⟩
      | error e =>
        cases e with
        | caught =>
          intro h
          exact Or.inl (Except.ok.inj h).symm
        | uncaught =>
          intro h
          exact Except.noConfusion h

/-- Witness for the search-tool theorem at the results `["Q42"]` and a
well-formed property response whose title is `"Property:P31"`. -/
theorem search_tools_sentinel_or_identifier_witness :
    search_entity (.success ["Q42"]) ≠ "" ∧
    (("P31" : String) = noResultsSentinel ∨
      ∃ title : String, ("P31" : String) = (pySplit ':' title).getLastD "") :=
  ⟨search_tools_sentinel_or_identifier.2.1 "Q42" [] (by decide),
   search_tools_sentinel_or_identifier.2.2.1
     (.ok (.obj [("query", .obj [("search",
        .arr [.obj [("title", .str "Property:P31")]])])])) "P31" rfl⟩

/-- Counterexample to claim C3 as stated: the GET requests issued by
`execute_sparql` and by `get_metadata` pass no explicit headers, so they do
not carry the fixed `Accept: application/json` / placeholder user-agent
header pair. -/
theorem execute_sparql_request_no_header_counterexample :
    (execute_sparql_request "SELECT 1").headers = [] ∧
    ("Accept", "application/json") ∉ (execute_sparql_request "SELECT 1").headers ∧
    (get_metadata_request "Q1" "en").headers = [] ∧
    ("User-Agent", "foobar") ∉ (get_metadata_request "Q1" "en").headers := by
  refine ⟨rfl, ?_, rfl, ?_⟩ <;>
    simp [execute_sparql_request, get_metadata_request]

/-- Claim C3 (amended): the fixed `Accept: application/json` header and the
placeholder user-agent are carried exactly by the two requests that pass
`headers=HEADER` — the property-search request and the `get_properties`
request — while `execute_sparql` and `get_metadata` pass no explicit
headers; all four requests target the two Wikidata endpoints. -/
theorem http_requests_headers :
    (∀ q, (search_property_request q).headers = HEADER ∧
      (search_property_request q).url = WIKIDATA_URL) ∧
    (∀ eid, (get_properties_request eid).headers = HEADER ∧
      (get_properties_request eid).url = WIKIDATA_URL) ∧
    (∀ q, (execute_sparql_request q).headers = [] ∧
      (execute_sparql_request q).url = SPARQL_URL) ∧
    (∀ eid lang, (get_metadata_request eid lang).headers = [] ∧
      (get_metadata_request eid lang).url = WIKIDATA_URL) ∧
    HEADER = [("Accept", "application/json"), ("User-Agent", "foobar")] :=
  ⟨fun _ => ⟨rfl, rfl⟩, fun _ => ⟨rfl, rfl⟩, fun _ => ⟨rfl, rfl⟩,
   fun _ _ => ⟨rfl, rfl⟩, rfl⟩

/-- Claim C8: exactly six tools are registered on the server, with exactly
the six expected names. -/
theorem registered_tools_exactly_six :
    registered_tools.length = 6 ∧ registered_tools.Nodup ∧
    ∀ t : String, t ∈ registered_tools ↔
      (t = "search_entity" ∨ t = "search_property" ∨ t = "get_properties" ∨
       t = "execute_sparql" ∨ t = "wikidata_query" ∨ t = "get_metadata") := by
  refine ⟨rfl, by decide, ?_⟩
  intro t
  simp [registered_tools]

/-- Claim C7: constructing the settings object validates the credential:
construction fails — before any launch parameters are produced — exactly
when `OPENAI_API_KEY` is absent from the environment, while the model and
prompt fields fall back to their declared defaults when their variables are
absent. -/
theorem config_validates_credential (env : List (String × String)) :
    (env.lookup "OPENAI_API_KEY" = none →
      Config.fromEnv env = .error () ∧ client_startup env = .error ()) ∧
    (∀ key, env.lookup "OPENAI_API_KEY" = some key →
      ∃ cfg, Config.fromEnv env = .ok cfg ∧
        cfg.openai_api_key = key ∧
        client_startup env = .ok (Config.stdio_params cfg) ∧
        (env.lookup "MCP_MODEL" = none → cfg.model = "gpt-4o") ∧
        (env.lookup "MCP_PROMPT" = none → cfg.prompt = defaultPrompt)) := by
  constructor
  · intro h
    constructor
    · simp [Config.fromEnv, h]
    · simp only [client_startup, Config.fromEnv, h]
      rfl
  · intro key h
    refine ⟨{ openai_api_key := key
              model := (env.lookup "MCP_MODEL").getD "gpt-4o"
              prompt := (env.lookup "MCP_PROMPT").getD defaultPrompt
              server_cmd := "python" }, ?_, rfl, ?_, ?_, ?_⟩
    · simp [Config.fromEnv, h]
    · simp only [client_startup, Config.fromEnv, h]
      rfl
    · intro hm
      simp [hm]
    · intro hp
      simp [hp]

/-- Witness for the configuration theorem: the empty environment fails
validation, and an environment carrying only the credential succeeds with
the default model and prompt. -/
theorem config_validates_credential_witness :
    (Config.fromEnv [] = .error () ∧ client_startup [] = .error ()) ∧
    (∃ cfg, Config.fromEnv [("OPENAI_API_KEY", "sk-test")] = .ok cfg ∧
      cfg.openai_api_key = "sk-test" ∧
      client_startup [("OPENAI_API_KEY", "sk-test")] =
        .ok (Config.stdio_params cfg) ∧
      ([("OPENAI_API_KEY", "sk-test")].lookup "MCP_MODEL" = none →
        cfg.model = "gpt-4o") ∧
      ([("OPENAI_API_KEY", "sk-test")].lookup "MCP_PROMPT" = none →
        cfg.prompt = defaultPrompt)) :=
  ⟨(config_validates_credential []).1 rfl,
   (config_validates_credential [("OPENAI_API_KEY", "sk-test")]).2 "sk-test" rfl⟩

theorem ok_bind {β γ : Type} (a : β) (f : β → Except Unit γ) :
    (Except.ok a : Except Unit β) >>= f = f a := rfl

theorem error_bind {β γ : Type} (f : β → Except Unit γ) :
    (Except.error () : Except Unit β) >>= f = Except.error () := rfl

/-- Claim C4: `get_properties` returns an empty list both when the entity
ID is absent from the response and when the entity exists with no claims
(each missing key defaults to the empty dict), while an HTTP error
propagates as a raised exception rather than a sentinel value. -/
theorem get_properties_defaults_and_errors (entity_id : String) :
    get_properties entity_id .httpError = .error () ∧
    (∀ ents : List (String × Json), ents.lookup entity_id = none →
      get_properties entity_id (.ok (.obj [("entities", .obj ents)])) = .ok []) ∧
    get_properties entity_id
      (.ok (.obj [("entities",
        .obj [(entity_id, .obj [("claims", .obj [])])])])) = .ok [] ∧
    get_properties entity_id
      (.ok (.obj [("entities", .obj [(entity_id, .obj [])])])) = .ok [] := by
  refine ⟨rfl, ?_, ?_, ?_⟩
  · intro ents h
    simp [get_properties, pyGet, ok_bind, h, List.lookup]
  · simp [get_properties, pyGet, ok_bind, List.lookup]
  · simp [get_properties, pyGet, ok_bind, List.lookup]

/-- Witness for the `get_properties` theorem: an entity ID absent from an
empty `entities` object yields the empty list. -/
theorem get_properties_defaults_and_errors_witness :
    get_properties "Q1" (.ok (.obj [("entities", .obj [])])) = .ok [] :=
  (get_properties_defaults_and_errors "Q1").2.1 [] rfl

theorem objLookup_eq_some {j : Json} {k : String} {v : Json}
    (h : objLookup j k = some v) :
    ∃ fields, j = Json.obj fields ∧ fields.lookup k = some v := by
  cases j with
  | obj fields => exact ⟨fields, rfl, by simpa [objLookup] using h⟩
  | null => simp [objLookup] at h
  | bool b => simp [objLookup] at h
  | num n => simp [objLookup] at h
  | str s => simp [objLookup] at h
  | arr elems => simp [objLookup] at h

/-- Claim C5: `execute_sparql` returns the JSON serialization of the
response's `results.bindings` value — for zero bindings exactly the JSON
text `"[]"` — and an HTTP error propagates as a raised exception. -/
theorem execute_sparql_serializes_bindings :
    execute_sparql .httpError = .error () ∧
    (∀ data results bindings : Json,
      objLookup data "results" = some results →
      objLookup results "bindings" = some bindings →
      execute_sparql (.ok data) = .ok (jsonDumps bindings)) ∧
    jsonDumps (.arr []) = "[]" := by
  refine ⟨rfl, ?_, rfl⟩
  intro data results bindings h1 h2
  obtain ⟨fs, rfl, h1'⟩ := objLookup_eq_some h1
  obtain ⟨gs, rfl, h2'⟩ := objLookup_eq_some h2
  simp [execute_sparql, pyIndex, ok_bind, h1', h2']

/-- Witness for the `execute_sparql` theorem: a response with zero bindings
serializes to the JSON text `"[]"`. -/
theorem execute_sparql_serializes_bindings_witness :
    execute_sparql (.ok (.obj [("results", .obj [("bindings", .arr [])])])) =
      .ok "[]" :=
  execute_sparql_serializes_bindings.2.1
    (.obj [("results", .obj [("bindings", .arr [])])])
    (.obj [("bindings", .arr [])]) (.arr []) rfl rfl

theorem metadataValue_ok (entity_data : Json) (field language : String)
    (hobj : entity_data.isObj = true)
    (h : fieldShapeOk entity_data field language = true) :
    ∃ s : String, metadataValue entity_data field language = .ok (.str s) ∧
      (valueAtField entity_data field language = none → s = "No label found") ∧
      (∀ t, valueAtField entity_data field language = some (.str t) → s = t) := by
  cases entity_data with
  | null => simp [Json.isObj] at hobj
  | bool b => simp [Json.isObj] at hobj
  | num n => simp [Json.isObj] at hobj
  | str s => simp [Json.isObj] at hobj
  | arr elems => simp [Json.isObj] at hobj
  | obj fs =>
    cases hf : fs.lookup field with
    | none =>
      refine ⟨"No label found", ?_, fun _ => rfl, ?_⟩
      · simp [metadataValue, pyGet, ok_bind, hf, List.lookup]
      · intro t ht
        simp [valueAtField, objLookup, hf] at ht
    | some m =>
      simp only [fieldShapeOk, objLookup, hf] at h
      cases m with
      | null => simp [Json.isObj] at h
      | bool b => simp [Json.isObj] at h
      | num n => simp [Json.isObj] at h
      | str s => simp [Json.isObj] at h
      | arr elems => simp [Json.isObj] at h
      | obj ms =>
        simp only [Json.isObj, Bool.true_and, objLookup] at h
        cases hl : ms.lookup language with
        | none =>
          refine ⟨"No label found", ?_, fun _ => rfl, ?_⟩
          · simp [metadataValue, pyGet, ok_bind, hf, hl, List.lookup]
          · intro t ht
            simp [valueAtField, objLookup, hf, hl] at ht
        | some langEntry =>
          simp only [hl] at h
          cases langEntry with
          | null => simp [Json.isObj] at h
          | bool b => simp [Json.isObj] at h
          | num n => simp [Json.isObj] at h
          | str s => simp [Json.isObj] at h
          | arr elems => simp [Json.isObj] at h
          | obj ls =>
            simp only [Json.isObj, Bool.true_and, objLookup] at h
            cases hv : ls.lookup "value" with
            | none =>
              refine ⟨"No label found", ?_, fun _ => rfl, ?_⟩
              · simp [metadataValue, pyGet, ok_bind, hf, hl, hv, List.lookup]
              · intro t ht
                simp [valueAtField, objLookup, hf, hl, hv] at ht
            | some v =>
              simp only [hv] at h
              cases v with
              | str t0 =>
                refine ⟨t0, ?_, ?_, ?_⟩
                · simp [metadataValue, pyGet, ok_bind, hf, hl, hv, List.lookup]
                · intro hn
                  simp [valueAtField, objLookup, hf, hl, hv] at hn
                · intro t ht
                  simp only [valueAtField, objLookup, hf, hl, hv,
                    Option.some_bind, Option.some.injEq, Json.str.injEq] at ht
                  exact ht
              | null => simp [Json.isStr] at h
              | bool b => simp [Json.isStr] at h
              | num n => simp [Json.isStr] at h
              | arr elems => simp [Json.isStr] at h
              | obj gs => simp [Json.isStr] at h

/-- Claim C2: for every entity ID and language, on any well-shaped
successful response `get_metadata` returns a mapping with exactly the keys
`"Label"` and `"Descriptions"`, both strings; a field absent at any level
of the upstream response defaults to the literal `"No label found"` — the
same fallback text for the label and for the description — and a present
string value is returned unchanged. -/
theorem get_metadata_label_and_descriptions (data : Json)
    (entity_id language : String)
    (h : metadataShapeOk data entity_id language = true) :
    ∃ label descr : String,
      get_metadata entity_id language (.ok data) =
        .ok [("Label", .str label), ("Descriptions", .str descr)] ∧
      (wbValueAt data entity_id "labels" language = none →
        label = "No label found") ∧
      (∀ t, wbValueAt data entity_id "labels" language = some (.str t) →
        label = t) ∧
      (wbValueAt data entity_id "descriptions" language = none →
        descr = "No label found") ∧
      (∀ t, wbValueAt data entity_id "descriptions" language = some (.str t) →
        descr = t) := by
  cases data with
  | null => simp [metadataShapeOk, Json.isObj] at h
  | bool b => simp [metadataShapeOk, Json.isObj] at h
  | num n => simp [metadataShapeOk, Json.isObj] at h
  | str s => simp [metadataShapeOk, Json.isObj] at h
  | arr elems => simp [metadataShapeOk, Json.isObj] at h
  | obj ds =>
    simp only [metadataShapeOk, Json.isObj, Bool.true_and, objLookup] at h
    cases he : ds.lookup "entities" with
    | none =>
      obtain ⟨l, hl1, hl2, _⟩ := metadataValue_ok (.obj []) "labels" language rfl rfl
      obtain ⟨d, hd1, hd2, _⟩ :=
        metadataValue_ok (.obj []) "descriptions" language rfl rfl
      refine ⟨l, d, ?_, fun _ => hl2 rfl, ?_, fun _ => hd2 rfl, ?_⟩
      · simp [get_metadata, pyGet, ok_bind, he, hl1, hd1, List.lookup]
      · intro t ht
        simp [wbValueAt, objLookup, he] at ht
      · intro t ht
        simp [wbValueAt, objLookup, he] at ht
    | some entities =>
      simp only [he] at h
      cases entities with
      | null => simp [Json.isObj] at h
      | bool b => simp [Json.isObj] at h
      | num n => simp [Json.isObj] at h
      | str s => simp [Json.isObj] at h
      | arr elems => simp [Json.isObj] at h
      | obj es =>
        simp only [Json.isObj, Bool.true_and, objLookup] at h
        cases hei : es.lookup entity_id with
        | none =>
          obtain ⟨l, hl1, hl2, _⟩ :=
            metadataValue_ok (.obj []) "labels" language rfl rfl
          obtain ⟨d, hd1, hd2, _⟩ :=
            metadataValue_ok (.obj []) "descriptions" language rfl rfl
          refine ⟨l, d, ?_, fun _ => hl2 rfl, ?_, fun _ => hd2 rfl, ?_⟩
          · simp [get_metadata, pyGet, ok_bind, he, hei, hl1, hd1, List.lookup]
          · intro t ht
            simp [wbValueAt, objLookup, he, hei] at ht
          · intro t ht
            simp [wbValueAt, objLookup, he, hei] at ht
        | some entity_data =>
          simp only [hei, Bool.and_eq_true] at h
          obtain ⟨⟨hedobj, hfl⟩, hfd⟩ := h
          obtain ⟨l, hl1, hl2, hl3⟩ :=
            metadataValue_ok entity_data "labels" language hedobj hfl
          obtain ⟨d, hd1, hd2, hd3⟩ :=
            metadataValue_ok entity_data "descriptions" language hedobj hfd
          have hwb : ∀ field : String,
              wbValueAt (.obj ds) entity_id field language =
                valueAtField entity_data field language := by
            intro field
            simp [wbValueAt, objLookup, he, hei]
          refine ⟨l, d, ?_, ?_, ?_, ?_, ?_⟩
          · simp [get_metadata, pyGet, ok_bind, he, hei, hl1, hd1, List.lookup]
          · intro hn
            exact hl2 ((hwb "labels") ▸ hn)
          · intro t ht
            exact hl3 t ((hwb "labels") ▸ ht)
          · intro hn
            exact hd2 ((hwb "descriptions") ▸ hn)
          · intro t ht
            exact hd3 t ((hwb "descriptions") ▸ ht)

/-- Witness for the `get_metadata` theorem at the empty response object:
both fields fall back to the shared literal. -/
theorem get_metadata_label_and_descriptions_witness :
    ∃ label descr : String,
      get_metadata "Q1" "en" (.ok (.obj [])) =
        .ok [("Label", .str label), ("Descriptions", .str descr)] ∧
      (wbValueAt (.obj []) "Q1" "labels" "en" = none →
        label = "No label found") ∧
      (∀ t, wbValueAt (.obj []) "Q1" "labels" "en" = some (.str t) →
        label = t) ∧
      (wbValueAt (.obj []) "Q1" "descriptions" "en" = none →
        descr = "No label found") ∧
      (∀ t, wbValueAt (.obj []) "Q1" "descriptions" "en" = some (.str t) →
        descr = t) :=
  get_metadata_label_and_descriptions (.obj []) "Q1" "en" rfl

end MCPWikidata
